import Mathlib

/-!
Verification development for the AI-News-Warehouse summarization pipeline.

The definitions below are a shallow embedding of the repository's core:

* `splitWords`, `chunkLoop`, `chunkWords`, `chunkText` embed
  `NewsSummarizer._chunk_text` (src/summarize.py, lines 19-40).
  Python's `text.split()` (split on any whitespace, dropping empty pieces)
  is embedded as `splitWords`.  The per-word cost estimate
  `len(word) * 1.3` and the comparison `current_length + word_length >
  max_length` are floating-point in the source; they are embedded exactly
  over the rationals by scaling both sides by 10:
  `wordCost w = 13 * len w` is compared against `10 * max_length`.
* `summarizeChunk` embeds `_summarize_chunk` (lines 42-54): the external
  HTTP call is an environment `env : String → Option String` where `none`
  is any transport/JSON failure; the except-branch returns `""`.
* `extractKeyInsights` embeds `_extract_key_insights` (lines 56-71).
* `summarizeArticleBody` embeds the `try:` body of `summarize_article`
  (lines 73-101); dictionary key access on a possibly-missing key is a
  `PyError.keyError`.  `summarizeArticle` is the whole function: the
  `except` clause maps every error to `None`.
* `processArticle`/`processArticles` embed `process_articles`
  (lines 103-122); `postOk` says whether the HTTP POST for a given
  article id succeeds.
* `receiveSummary` embeds the `/news/summarize/{news_id}` endpoint
  `receive_summary` (src/api.py, lines 109-134).  The relational store is
  a list of `NewsSummaryRow` in table order, the Chroma collection a list
  of `VectorEntry`; `commitOk` and `vectorOk` model whether
  `db.commit()` and `collection.add(...)` succeed.  A rollback after a
  successful commit does not undo the committed change.
* `querySummaries` embeds the `/query` endpoint `query_summaries`
  (src/api.py, lines 158-189): the ranked id list returned by
  `collection.query` is an input, and
  `db.query(...).filter(NewsSummary.id.in_(ids)).all()` returns the
  matching rows in table order.
-/

/-- Embedding of Python's `" ".join(...)` (with a general separator). -/
def joinWith (sep : String) : List String → String
  | [] => ""
  | [s] => s
  | s :: t :: rest => s ++ sep ++ joinWith sep (t :: rest)

/-- Helper for `splitWords`: scans the character list, accumulating the
current (reversed) word. -/
def splitWordsAux : List Char → List Char → List String
  | [], cur => if cur.isEmpty then [] else [String.mk cur.reverse]
  | c :: cs, cur =>
    if c.isWhitespace then
      if cur.isEmpty then splitWordsAux cs [] else String.mk cur.reverse :: splitWordsAux cs []
    else
      splitWordsAux cs (c :: cur)

/-- Embedding of Python's `text.split()`: split on runs of whitespace,
returning the (non-empty) words in order. -/
def splitWords (text : String) : List String :=
  splitWordsAux text.toList []

/-- The source's per-word cost estimate `len(word) * 1.3`, scaled by 10 to
stay in `Nat` (src/summarize.py line 28). -/
def wordCost (w : String) : Nat := 13 * w.length

/-- The word-accumulation loop of `_chunk_text` (src/summarize.py lines
26-38).  `currentChunk`/`currentLength` are the loop variables; the budget
comparison is scaled by 10 (see `wordCost`).  The final
`if current_chunk: chunks.append(...)` is the base case. -/
def chunkLoop (maxLength : Nat) : List String → List String → Nat → List String
  | [], currentChunk, _ =>
    if currentChunk.isEmpty then [] else [joinWith " " currentChunk]
  | w :: ws, currentChunk, currentLength =>
    if currentLength + wordCost w > 10 * maxLength then
      joinWith " " currentChunk :: chunkLoop maxLength ws [w] (wordCost w)
    else
      chunkLoop maxLength ws (currentChunk ++ [w]) (currentLength + wordCost w)

/-- `_chunk_text` after `text.split()`: chunk a word list under the budget. -/
def chunkWords (ws : List String) (maxLength : Nat) : List String :=
  chunkLoop maxLength ws [] 0

/-- Embedding of `NewsSummarizer._chunk_text(text, max_length)`
(src/summarize.py lines 19-40). -/
def chunkText (text : String) (maxLength : Nat) : List String :=
  chunkWords (splitWords text) maxLength

/-- Embedding of `_summarize_chunk` (src/summarize.py lines 42-54): on a
successful call the response's `summary_text` is stripped; any exception is
caught and `""` is returned. -/
def summarizeChunk (env : String → Option String) (text : String) : String :=
  match env text with
  | some s => s.trim
  | none => ""

/-- Embedding of `_extract_key_insights` (src/summarize.py lines 56-71):
the same capability is called on a prompt; the stripped response is split
on newlines, each line stripped, blank lines discarded; any exception is
caught and `[]` is returned. -/
def extractKeyInsights (env : String → Option String) (text : String) : List String :=
  match env ("Extract 3-5 key insights from this text: " ++ text) with
  | some insights =>
      ((insights.trim.splitOn "\n").map String.trim).filter (fun s => s ≠ "")
  | none => []

/-- A Python-level error escaping the `try:` body of `summarize_article`
(only missing-key dictionary access can occur there). -/
inductive PyError where
  | keyError
deriving DecidableEq

/-- The result dictionary built by `summarize_article`
(src/summarize.py lines 91-97). -/
structure SummaryDict where
  summary : String
  insights : List String
  original_title : String
  source : String
  topic : String
deriving DecidableEq

/-- An input article dictionary; each field is `none` when the key is
missing from the dict. -/
structure ArticleDict where
  id : Option Nat
  title : Option String
  content : Option String
  source : Option String
  topic : Option String
deriving DecidableEq

/-- The combination step `" ".join(chunk_summaries)`
(src/summarize.py line 86). -/
def combineChunkSummaries (chunkSummaries : List String) : String :=
  joinWith " " chunkSummaries

/-- Combination as the spec states it (§4.3 step 4: "joining the non-empty
ones with a single space, in order"); written from the spec's words only,
for comparison with `combineChunkSummaries`. -/
def combineNonEmptySpec (chunkSummaries : List String) : String :=
  joinWith " " (chunkSummaries.filter (fun s => s ≠ ""))

/-- The `try:` body of `summarize_article` (src/summarize.py lines 75-97):
key accesses may raise; the external capability is `env`. -/
def summarizeArticleBody (a : ArticleDict) (env : String → Option String) :
    Except PyError SummaryDict :=
  match a.title, a.content with
  | some title, some content =>
    let fullText := title ++ "\n\n" ++ content
    let chunks := chunkText fullText 1024
    let chunkSummaries := chunks.map (summarizeChunk env)
    let combinedSummary := combineChunkSummaries chunkSummaries
    let insights := extractKeyInsights env fullText
    match a.source, a.topic with
    | some source, some topic =>
        Except.ok
          { summary := combinedSummary, insights := insights,
            original_title := title, source := source, topic := topic }
    | _, _ => Except.error PyError.keyError
  | _, _ => Except.error PyError.keyError

/-- Embedding of `summarize_article` (src/summarize.py lines 73-101): the
`except` clause turns every error into `None`. -/
def summarizeArticle (a : ArticleDict) (env : String → Option String) :
    Option SummaryDict :=
  match summarizeArticleBody a env with
  | Except.ok r => some r
  | Except.error _ => none

/-- Observable outcome of one iteration of the `process_articles` loop:
the success print, the `continue` on a `None` summary, or the error print
in the `except` clause. -/
inductive ProcessOutcome where
  | success
  | skipped
  | errorLogged
deriving DecidableEq

/-- One iteration of the `process_articles` loop (src/summarize.py lines
105-122): a `None` result is skipped; otherwise the summary is POSTed for
`article['id']` (a missing id key or a failed POST lands in the `except`
clause). -/
def processArticle (a : ArticleDict) (env : String → Option String)
    (postOk : Nat → Bool) : ProcessOutcome :=
  match summarizeArticle a env with
  | none => ProcessOutcome.skipped
  | some _ =>
    match a.id with
    | none => ProcessOutcome.errorLogged
    | some i => if postOk i then ProcessOutcome.success else ProcessOutcome.errorLogged

/-- Embedding of `process_articles` (src/summarize.py lines 103-122). -/
def processArticles (articles : List ArticleDict) (env : String → Option String)
    (postOk : Nat → Bool) : List ProcessOutcome :=
  articles.map (fun a => processArticle a env postOk)

/-- A row of the `news_summaries` table (src/api.py lines 42-51).  The
timestamp is abstracted to a `Nat`. -/
structure NewsSummaryRow where
  id : Nat
  title : String
  content : String
  summary : Option String
  topic : String
  source : String
  created_at : Nat
deriving DecidableEq

/-- An entry of the Chroma collection `news_summaries` as written by
`collection.add` (src/api.py lines 122-127). -/
structure VectorEntry where
  entryId : String
  document : String
  meta_id : String
  meta_topic : String
deriving DecidableEq

/-- The HTTP error responses `receive_summary` can raise. -/
inductive ApiError where
  | notFound404
  | serverError500
deriving DecidableEq

/-- Result of a `receive_summary` call: the HTTP response plus the two
stores afterwards. -/
structure ReceiveResult where
  response : Except ApiError NewsSummaryRow
  db : List NewsSummaryRow
  vec : List VectorEntry

/-- Embedding of `receive_summary` (src/api.py lines 109-134).  The row is
looked up by id; on a miss a 404 is raised with both stores unchanged.
Then `news.summary = summary; db.commit()`: if the commit fails the
rollback restores the store and a 500 is raised.  Only after a successful
commit is `collection.add` attempted; if it fails, the rollback cannot
undo the committed relational change, and a 500 is raised. -/
def receiveSummary (newsId : Nat) (summary : String) (db : List NewsSummaryRow)
    (vec : List VectorEntry) (commitOk vectorOk : Bool) : ReceiveResult :=
  match db.find? (fun r => r.id == newsId) with
  | none => ⟨Except.error ApiError.notFound404, db, vec⟩
  | some news =>
    if commitOk then
      let db' := db.map (fun r => if r.id == newsId then { r with summary := some summary } else r)
      if vectorOk then
        ⟨Except.ok { news with summary := some summary }, db',
          vec ++ [⟨toString newsId, summary, toString newsId, news.topic⟩]⟩
      else
        ⟨Except.error ApiError.serverError500, db', vec⟩
    else
      ⟨Except.error ApiError.serverError500, db, vec⟩

/-- One item of the `/query` response (src/api.py lines 178-184). -/
structure QueryResultItem where
  id : Nat
  title : String
  summary : Option String
  topic : String
  created_at : Nat
deriving DecidableEq

/-- Projection of a row to a `/query` response item. -/
def mkQueryItem (s : NewsSummaryRow) : QueryResultItem :=
  ⟨s.id, s.title, s.summary, s.topic, s.created_at⟩

/-- Embedding of `query_summaries` (src/api.py lines 158-189).  The ranked
id list produced by `collection.query` (already converted to integers,
line 172) is the input `rankedIds`; the batch lookup
`filter(NewsSummary.id.in_(summary_ids)).all()` returns matching rows in
table order. -/
def querySummaries (db : List NewsSummaryRow) (rankedIds : List Nat) :
    List QueryResultItem :=
  ((db.filter (fun r => rankedIds.contains r.id)).map mkQueryItem)

/-! ### Helper lemmas about `joinWith`, `splitWords` and `chunkLoop` -/

theorem joinWith_append (sep : String) :
    ∀ (l₁ l₂ : List String), l₁ ≠ [] → l₂ ≠ [] →
      joinWith sep (l₁ ++ l₂) = joinWith sep l₁ ++ sep ++ joinWith sep l₂
  | [], _, h, _ => absurd rfl h
  | [_], [], _, h => absurd rfl h
  | [s], t :: l, _, _ => rfl
  | s :: t :: rest, l₂, _, h₂ => by
    have ih := joinWith_append sep (t :: rest) l₂ (by simp) h₂
    show s ++ sep ++ joinWith sep ((t :: rest) ++ l₂) = _
    rw [ih, joinWith]
    simp [String.append_assoc]

theorem flatten_ne_nil {α : Type} :
    ∀ (gs : List (List α)), gs ≠ [] → (∀ g ∈ gs, g ≠ []) → gs.flatten ≠ []
  | [], h, _ => absurd rfl h
  | g :: gs, _, hg => by
    have : g ≠ [] := hg g (by simp)
    cases g with
    | nil => exact absurd rfl this
    | cons a l => simp

theorem joinWith_flatten (sep : String) :
    ∀ (gs : List (List String)), (∀ g ∈ gs, g ≠ []) →
      joinWith sep (gs.map (joinWith sep)) = joinWith sep gs.flatten
  | [], _ => rfl
  | [g], _ => by simp [joinWith]
  | g :: g' :: gs, h => by
    have hg : g ≠ [] := h g (by simp)
    have hrest₀ : ∀ x ∈ g' :: gs, x ≠ [] := fun x hx => h x (by simp [hx])
    have hrest : (g' :: gs).flatten ≠ [] := flatten_ne_nil _ (by simp) hrest₀
    have ih := joinWith_flatten sep (g' :: gs) hrest₀
    show joinWith sep (joinWith sep g :: joinWith sep g' :: gs.map (joinWith sep))
        = joinWith sep (g ++ (g' :: gs).flatten)
    rw [joinWith_append sep g _ hg hrest, ← ih]
    rfl

theorem chunkLoop_ne_nil (maxLength : Nat) :
    ∀ (ws cur : List String) (len : Nat), cur ≠ [] →
      chunkLoop maxLength ws cur len ≠ []
  | [], cur, len, h => by
    simp only [chunkLoop]
    rw [if_neg (by simpa using h)]
    simp
  | w :: ws, cur, len, h => by
    simp only [chunkLoop]
    by_cases hc : len + wordCost w > 10 * maxLength
    · rw [if_pos hc]; simp
    · rw [if_neg hc]
      exact chunkLoop_ne_nil maxLength ws (cur ++ [w]) (len + wordCost w) (by simp)

theorem chunkLoop_groups (maxLength : Nat) :
    ∀ (ws cur : List String) (len : Nat), cur ≠ [] →
      ∃ gs : List (List String),
        chunkLoop maxLength ws cur len = gs.map (joinWith " ") ∧
        gs.flatten = cur ++ ws ∧ (∀ g ∈ gs, g ≠ []) ∧ gs ≠ []
  | [], cur, len, h => by
    refine ⟨[cur], ?_, by simp, by simpa using h, by simp⟩
    simp only [chunkLoop]
    rw [if_neg (by simpa using h)]
    simp
  | w :: ws, cur, len, h => by
    by_cases hc : len + wordCost w > 10 * maxLength
    · obtain ⟨gs, e, f, n, _⟩ :=
        chunkLoop_groups maxLength ws [w] (wordCost w) (by simp)
      refine ⟨cur :: gs, ?_, ?_, ?_, by simp⟩
      · simp only [chunkLoop]
        rw [if_pos hc, e]
        simp
      · simp [f]
      · intro g hg
        rcases List.mem_cons.mp hg with rfl | hg
        · exact h
        · exact n g hg
    · obtain ⟨gs, e, f, n, ne⟩ :=
        chunkLoop_groups maxLength ws (cur ++ [w]) (len + wordCost w) (by simp)
      refine ⟨gs, ?_, ?_, n, ne⟩
      · simp only [chunkLoop]
        rw [if_neg hc, e]
      · simp [f]

theorem string_append_ne_empty_left (s t : String) (h : s ≠ "") : s ++ t ≠ "" := by
  intro he
  apply h
  have hd : s.data ++ t.data = [] := by rw [← String.data_append, he]
  have hs : s.data = [] := (List.append_eq_nil.mp hd).1
  obtain ⟨data⟩ := s
  have hdata : data = [] := hs
  subst hdata
  rfl

theorem joinWith_ne_empty (sep : String) :
    ∀ (l : List String), l ≠ [] → (∀ s ∈ l, s ≠ "") → joinWith sep l ≠ ""
  | [], h, _ => absurd rfl h
  | [s], _, hs => by simpa [joinWith] using hs s (by simp)
  | s :: t :: rest, _, hs => by
    show s ++ sep ++ joinWith sep (t :: rest) ≠ ""
    exact string_append_ne_empty_left _ _
      (string_append_ne_empty_left _ _ (hs s (by simp)))

theorem splitWordsAux_mem_ne_empty :
    ∀ (cs cur : List Char), (∀ w ∈ splitWordsAux cs cur, w ≠ "")
  | [], cur => by
    simp only [splitWordsAux]
    by_cases h : cur.isEmpty
    · rw [if_pos h]; simp
    · rw [if_neg h]
      intro w hw
      rw [List.mem_singleton] at hw
      subst hw
      intro he
      have : cur.reverse.length = 0 := by
        have := congrArg String.length he
        simpa [String.length] using this
      simp only [List.length_reverse, List.length_eq_zero] at this
      subst this
      simp at h
  | c :: cs, cur => by
    simp only [splitWordsAux]
    by_cases hws : c.isWhitespace
    · rw [if_pos hws]
      by_cases h : cur.isEmpty
      · rw [if_pos h]
        exact splitWordsAux_mem_ne_empty cs []
      · rw [if_neg h]
        intro w hw
        rcases List.mem_cons.mp hw with rfl | hw
        · intro he
          have : cur.reverse.length = 0 := by
            have := congrArg String.length he
            simpa [String.length] using this
          simp only [List.length_reverse, List.length_eq_zero] at this
          subst this
          simp at h
        · exact splitWordsAux_mem_ne_empty cs [] w hw
    · rw [if_neg hws]
      exact splitWordsAux_mem_ne_empty cs (c :: cur)

theorem splitWords_mem_ne_empty (text : String) :
    ∀ w ∈ splitWords text, w ≠ "" :=
  splitWordsAux_mem_ne_empty text.toList []

theorem joinWith_all_space :
    ∀ (l : List String), (∀ s ∈ l, s = "") →
      ∀ ch ∈ (joinWith " " l).data, ch = ' '
  | [], _ => by intro ch hch; simp [joinWith] at hch
  | [s], h => by
    have : s = "" := h s (by simp)
    subst this
    intro ch hch
    simp [joinWith] at hch
  | s :: t :: rest, h => by
    have hs : s = "" := h s (by simp)
    have ih := joinWith_all_space (t :: rest) (fun x hx => h x (by simp [hx]))
    subst hs
    intro ch hch
    show ch = ' '
    have : (joinWith " " ("" :: t :: rest)).data
        = "".data ++ " ".data ++ (joinWith " " (t :: rest)).data := by
      show (("" ++ " ") ++ joinWith " " (t :: rest)).data = _
      rw [String.data_append, String.data_append]
    rw [this] at hch
    simp only [List.mem_append] at hch
    rcases hch with (hch | hch) | hch
    · simp at hch
    · simpa using hch
    · exact ih ch hch

theorem find_map_set_summary (i : Nat) (s : String) :
    ∀ (db : List NewsSummaryRow) (news : NewsSummaryRow),
      db.find? (fun r => r.id == i) = some news →
      (db.map (fun r => if r.id == i then { r with summary := some s } else r)).find?
        (fun r => r.id == i) = some { news with summary := some s }
  | [], news, h => by simp at h
  | r :: rest, news, h => by
    by_cases hr : r.id = i
    · have hb : (r.id == i) = true := beq_iff_eq.mpr hr
      rw [List.find?_cons_of_pos rest hb] at h
      injection h with hnews
      subst hnews
      simp only [List.map_cons]
      rw [if_pos hb]
      exact List.find?_cons_of_pos _ hb
    · have hb : ¬ (r.id == i) = true := by simp [hr]
      rw [List.find?_cons_of_neg rest hb] at h
      simp only [List.map_cons]
      rw [if_neg hb]
      rw [@List.find?_cons_of_neg _ (fun x => x.id == i) r _ hb]
      exact find_map_set_summary i s rest news h

/-! ### Claim theorems -/

/-- Claim C4: for every input text in which no single word's estimated cost
exceeds the budget, joining the chunks produced by `_chunk_text` with
single spaces reconstructs the single-space join of the original
whitespace-split word sequence: no word is duplicated, dropped or
reordered. -/
theorem chunk_roundtrip (text : String) (maxLength : Nat)
    (h : ∀ w ∈ splitWords text, wordCost w ≤ 10 * maxLength) :
    joinWith " " (chunkText text maxLength) = joinWith " " (splitWords text) := by
  unfold chunkText chunkWords
  cases hws : splitWords text with
  | nil => rfl
  | cons w ws =>
    have hw : wordCost w ≤ 10 * maxLength := h w (by rw [hws]; simp)
    have hcond : ¬ (0 + wordCost w > 10 * maxLength) := by omega
    simp only [chunkLoop]
    rw [if_neg hcond]
    obtain ⟨gs, e, f, n, _⟩ :=
      chunkLoop_groups maxLength ws ([] ++ [w]) (0 + wordCost w) (by simp)
    rw [e, joinWith_flatten " " gs n, f]
    simp

/-- Witness for C4 at the concrete text `"ab cd"` with the source's default
budget 1024. -/
theorem chunk_roundtrip_witness :
    (∀ w ∈ splitWords "ab cd", wordCost w ≤ 10 * 1024) ∧
    joinWith " " (chunkText "ab cd" 1024) = joinWith " " (splitWords "ab cd") :=
  ⟨by decide, chunk_roundtrip "ab cd" 1024 (by decide)⟩

/-- Counterexample to C5 as stated: a single word whose cost exceeds the
budget (`wordCost "abc" = 39 > 20 = 10 * 2`) is NOT returned as a singleton
chunk; `_chunk_text` first closes the still-empty current chunk, emitting
an empty chunk before the word. -/
theorem chunk_singleton_cx :
    chunkText "abc" 2 = ["", "abc"] ∧ chunkText "abc" 2 ≠ ["abc"] := by decide

/-- Claim C5 as amended: (1) for every input text containing at least one
word, `_chunk_text` returns at least one non-empty chunk; (2) a single word
whose estimated cost exceeds the budget is kept in its own chunk (not
discarded), but that chunk is preceded by one empty chunk: the output is
`["", w]`, not the singleton `[w]`. -/
theorem chunk_nonempty_and_oversized_word :
    (∀ (text : String) (maxLength : Nat), splitWords text ≠ [] →
        ∃ c ∈ chunkText text maxLength, c ≠ "") ∧
    (∀ (w : String) (maxLength : Nat), 10 * maxLength < wordCost w →
        chunkWords [w] maxLength = ["", w]) := by
  constructor
  · intro text maxLength hne
    unfold chunkText chunkWords
    cases hws : splitWords text with
    | nil => exact absurd hws hne
    | cons w ws =>
      have hwne : ∀ x ∈ w :: ws, x ≠ "" := by
        rw [← hws]
        exact fun x hx => splitWords_mem_ne_empty text x hx
      by_cases hc : 0 + wordCost w > 10 * maxLength
      · obtain ⟨gs, e, f, n, gne⟩ :=
          chunkLoop_groups maxLength ws [w] (wordCost w) (by simp)
        cases gs with
        | nil => exact absurd rfl gne
        | cons g gs' =>
          refine ⟨joinWith " " g, ?_, ?_⟩
          · show joinWith " " g ∈ chunkLoop maxLength (w :: ws) [] 0
            simp only [chunkLoop]
            rw [if_pos hc, e]
            simp
          · apply joinWith_ne_empty " " g (n g (by simp))
            intro s hs
            have hmem : s ∈ (g :: gs').flatten := List.mem_flatten.mpr ⟨g, by simp, hs⟩
            rw [f] at hmem
            exact hwne s (by simpa using hmem)
      · obtain ⟨gs, e, f, n, gne⟩ :=
          chunkLoop_groups maxLength ws ([] ++ [w]) (0 + wordCost w) (by simp)
        cases gs with
        | nil => exact absurd rfl gne
        | cons g gs' =>
          refine ⟨joinWith " " g, ?_, ?_⟩
          · show joinWith " " g ∈ chunkLoop maxLength (w :: ws) [] 0
            simp only [chunkLoop]
            rw [if_neg hc, e]
            simp
          · apply joinWith_ne_empty " " g (n g (by simp))
            intro s hs
            have hmem : s ∈ (g :: gs').flatten := List.mem_flatten.mpr ⟨g, by simp, hs⟩
            rw [f] at hmem
            exact hwne s (by simpa using hmem)
  · intro w maxLength hw
    have hc : 0 + wordCost w > 10 * maxLength := by omega
    simp only [chunkWords, chunkLoop]
    rw [if_pos hc]
    simp [chunkLoop, joinWith]

/-- Witness for C5 (amended) at concrete inputs: `"ab"` has a word, and the
budget-2 word `"abc"` yields `["", "abc"]`. -/
theorem chunk_nonempty_and_oversized_word_witness :
    (splitWords "ab" ≠ []) ∧ (∃ c ∈ chunkText "ab" 1024, c ≠ "") ∧
    (10 * 2 < wordCost "abc") ∧ chunkWords ["abc"] 2 = ["", "abc"] :=
  ⟨by decide, chunk_nonempty_and_oversized_word.1 "ab" 1024 (by decide), by decide,
   chunk_nonempty_and_oversized_word.2 "abc" 2 (by decide)⟩

/-- Counterexample to C6 as stated: on empty and on whitespace-only input
`_chunk_text` raises nothing; it returns the empty list of chunks (there is
no `InvalidInputError` anywhere in the source). -/
theorem chunk_empty_input_cx :
    chunkText "" 1024 = [] ∧ chunkText "   " 1024 = [] := by decide

/-- Claim C6 as amended: for every input text with no words (empty or
whitespace-only), `_chunk_text` returns the empty list of chunks instead of
failing with `InvalidInputError`. -/
theorem chunk_empty_input_returns_nil (text : String) (maxLength : Nat)
    (h : splitWords text = []) : chunkText text maxLength = [] := by
  unfold chunkText chunkWords
  rw [h]
  rfl

/-- Witness for C6 (amended) at the concrete whitespace-only text `" "`. -/
theorem chunk_empty_input_returns_nil_witness :
    splitWords " " = [] ∧ chunkText " " 1024 = [] :=
  ⟨by decide, chunk_empty_input_returns_nil " " 1024 (by decide)⟩

/-- Counterexample to C2 as stated: `summarize_article` combines the chunk
summaries with `" ".join(chunk_summaries)` over ALL of them, so an empty
(failed) middle summary still contributes its surrounding separators:
`["a", "", "b"]` combines to `"a  b"` (two spaces), not to the
spec's join of the non-empty ones, `"a b"`. -/
theorem combine_includes_empty_cx :
    combineChunkSummaries ["a", "", "b"] = "a  b" ∧
    combineChunkSummaries ["a", "", "b"] ≠ combineNonEmptySpec ["a", "", "b"] ∧
    combineNonEmptySpec ["a", "", "b"] = "a b" := by decide

/-- Claim C2 as amended: the combined summary joins ALL per-chunk summaries
(including empty ones from failed chunks) with a single space between
consecutive entries; when the middle chunk of three fails, the combined
summary is chunk 1's summary and chunk 3's summary separated by TWO
spaces. -/
theorem combine_middle_empty (s₁ s₃ : String) :
    combineChunkSummaries [s₁, "", s₃] = s₁ ++ " " ++ " " ++ s₃ := by
  show s₁ ++ " " ++ ("" ++ " " ++ s₃) = s₁ ++ " " ++ " " ++ s₃
  rw [show ("" ++ " ") = " " from rfl]
  rw [← String.append_assoc]

/-- Counterexample to C3 as stated: with every external call failing, the
one-chunk article `{title "T", content "c"}` still yields a result
(summary `""`), and `process_articles` successfully POSTs it — nothing
transitions to FAILED, and the empty summary IS persisted (no
`SummarizationFailedError` exists in the source). -/
theorem all_chunks_fail_persisted_cx :
    summarizeArticle ⟨some 1, some "T", some "c", some "S", some "N"⟩ (fun _ => none)
      = some ⟨"", [], "T", "S", "N"⟩ ∧
    processArticles [⟨some 1, some "T", some "c", some "S", some "N"⟩]
      (fun _ => none) (fun _ => true) = [ProcessOutcome.success] := by decide

/-- Claim C3 as amended: if every external call fails (`env` always
`none`), `summarize_article` does NOT fail; it returns a result whose
summary consists only of spaces (the `" ".join` of one empty string per
chunk — empty for a one-chunk article) and whose insights are empty, and
that result is handed on for persistence. -/
theorem all_chunks_fail_result (env : String → Option String)
    (henv : ∀ x, env x = none) (i : Option Nat) (t c s tp : String) :
    ∃ r, summarizeArticle ⟨i, some t, some c, some s, some tp⟩ env = some r ∧
      (∀ ch ∈ r.summary.data, ch = ' ') ∧ r.insights = [] := by
  refine ⟨⟨combineChunkSummaries
            ((chunkText (t ++ "\n\n" ++ c) 1024).map (summarizeChunk env)),
          extractKeyInsights env (t ++ "\n\n" ++ c), t, s, tp⟩, rfl, ?_, ?_⟩
  · exact joinWith_all_space _ (by
      intro x hx
      rw [List.mem_map] at hx
      obtain ⟨ch, _, hch⟩ := hx
      rw [← hch]
      simp [summarizeChunk, henv])
  · simp [extractKeyInsights, henv]

/-- Witness for C3 (amended) with the everywhere-failing environment and a
concrete article. -/
theorem all_chunks_fail_result_witness :
    (∀ x, (fun _ : String => (none : Option String)) x = none) ∧
    (∃ r, summarizeArticle ⟨some 1, some "T", some "c", some "S", some "N"⟩
        (fun _ => none) = some r ∧ (∀ ch ∈ r.summary.data, ch = ' ') ∧ r.insights = []) :=
  ⟨fun _ => rfl,
   all_chunks_fail_result (fun _ => none) (fun _ => rfl) (some 1) "T" "c" "S" "N"⟩

/-- Counterexample to C8 as stated: an article with empty title AND empty
content is not rejected; `summarize_article` performs no validation and
returns a successful result with an empty summary (there is no
`InvalidInputError` and no FAILED transition in the source). -/
theorem empty_article_not_rejected_cx :
    summarizeArticle ⟨some 1, some "", some "", some "S", some "N"⟩ (fun _ => none)
      = some ⟨"", [], "", "S", "N"⟩ := by decide

/-- Claim C8 as amended: no input validation occurs.  For every
environment, an article whose title and content are both empty proceeds
through chunking (producing zero chunks) and returns a normal result whose
summary is the empty string; it is never failed with `InvalidInputError`. -/
theorem empty_article_processed (env : String → Option String) (i : Option Nat)
    (s tp : String) :
    ∃ r, summarizeArticle ⟨i, some "", some "", some s, some tp⟩ env = some r ∧
      r.summary = "" := by
  refine ⟨⟨combineChunkSummaries
            ((chunkText ("" ++ "\n\n" ++ "") 1024).map (summarizeChunk env)),
          extractKeyInsights env ("" ++ "\n\n" ++ ""), "", s, tp⟩, rfl, ?_⟩
  have h : chunkText ("" ++ "\n\n" ++ "") 1024 = [] := by decide
  rw [h]
  rfl

/-- Claim C10: `summarize_article` is total at its interface: a missing
`title` or `content` key raises a `KeyError` inside the `try:` body, the
`except` clause turns it into `None` (no exception escapes), and
`process_articles` skips that article and continues with the rest of the
batch. -/
theorem summarize_article_total (a : ArticleDict) (arts : List ArticleDict)
    (env : String → Option String) (postOk : Nat → Bool)
    (h : a.title = none ∨ a.content = none) :
    (∃ e, summarizeArticleBody a env = Except.error e) ∧
    summarizeArticle a env = none ∧
    processArticles (a :: arts) env postOk
      = ProcessOutcome.skipped :: processArticles arts env postOk := by
  obtain ⟨i, ti, co, so, tp⟩ := a
  have hbody : summarizeArticleBody ⟨i, ti, co, so, tp⟩ env
      = Except.error PyError.keyError := by
    rcases h with h | h
    · have hti : ti = none := h
      subst hti
      rfl
    · have hco : co = none := h
      subst hco
      cases ti <;> rfl
  refine ⟨⟨PyError.keyError, hbody⟩, ?_, ?_⟩
  · simp [summarizeArticle, hbody]
  · simp [processArticles, processArticle, summarizeArticle, hbody]

/-- Witness for C10: a concrete article missing its `title` key is skipped
while the (empty) rest of the batch is still processed. -/
theorem summarize_article_total_witness :
    ((⟨some 1, none, some "c", some "S", some "N"⟩ : ArticleDict).title = none ∨
     (⟨some 1, none, some "c", some "S", some "N"⟩ : ArticleDict).content = none) ∧
    ((∃ e, summarizeArticleBody ⟨some 1, none, some "c", some "S", some "N"⟩
        (fun _ => none) = Except.error e) ∧
     summarizeArticle ⟨some 1, none, some "c", some "S", some "N"⟩ (fun _ => none) = none ∧
     processArticles [⟨some 1, none, some "c", some "S", some "N"⟩]
        (fun _ => none) (fun _ => true)
       = ProcessOutcome.skipped :: processArticles [] (fun _ => none) (fun _ => true)) :=
  ⟨Or.inl rfl,
   summarize_article_total ⟨some 1, none, some "c", some "S", some "N"⟩ []
     (fun _ => none) (fun _ => true) (Or.inl rfl)⟩

/-- Claim C1: no orphan vector entries.  `receive_summary` attempts the
vector-index write only after the relational write has succeeded: whenever
the relational write fails — the article id is unknown (404) or the commit
fails (500) — the vector store is left exactly as it was, so no vector
entry is created for that article id. -/
theorem no_orphan_vector_entry (newsId : Nat) (summary : String)
    (db : List NewsSummaryRow) (vec : List VectorEntry) (commitOk vectorOk : Bool)
    (h : db.find? (fun r => r.id == newsId) = none ∨ commitOk = false) :
    (receiveSummary newsId summary db vec commitOk vectorOk).vec = vec := by
  unfold receiveSummary
  rcases h with h | h
  · rw [h]
  · subst h
    cases hf : db.find? (fun r => r.id == newsId) with
    | none => rfl
    | some news => simp

/-- Witness for C1 at a concrete unknown id (empty relational store). -/
theorem no_orphan_vector_entry_witness :
    (List.find? (fun r => r.id == 1) ([] : List NewsSummaryRow) = none ∨ true = false) ∧
    (receiveSummary 1 "s" [] [] true true).vec = [] :=
  ⟨Or.inl rfl, no_orphan_vector_entry 1 "s" [] [] true true (Or.inl rfl)⟩

/-- Claim C9: if the vector write fails after the relational write
succeeded, `receive_summary` reports the failure to the caller as an error
response (the spec's `PartialWriteError`, realized as the HTTP 500 raised
from the except-clause) rather than swallowing it, and the committed
relational record — with the summary attached — still exists and is
retrievable by direct id lookup (the post-commit rollback cannot undo
it). -/
theorem partial_write_error_reported (newsId : Nat) (summary : String)
    (db : List NewsSummaryRow) (vec : List VectorEntry) (news : NewsSummaryRow)
    (h : db.find? (fun r => r.id == newsId) = some news) :
    (receiveSummary newsId summary db vec true false).response
        = Except.error ApiError.serverError500 ∧
    (receiveSummary newsId summary db vec true false).db.find? (fun r => r.id == newsId)
        = some { news with summary := some summary } := by
  unfold receiveSummary
  rw [h]
  exact ⟨rfl, find_map_set_summary newsId summary db news h⟩

/-- Witness for C9 at a concrete one-row store. -/
theorem partial_write_error_reported_witness :
    (List.find? (fun r => r.id == 1)
        [(⟨1, "t", "c", none, "n", "s", 0⟩ : NewsSummaryRow)]
      = some ⟨1, "t", "c", none, "n", "s", 0⟩) ∧
    ((receiveSummary 1 "sum" [⟨1, "t", "c", none, "n", "s", 0⟩] [] true false).response
        = Except.error ApiError.serverError500 ∧
     (receiveSummary 1 "sum" [⟨1, "t", "c", none, "n", "s", 0⟩] [] true false).db.find?
        (fun r => r.id == 1) = some ⟨1, "t", "c", some "sum", "n", "s", 0⟩) :=
  ⟨by decide,
   partial_write_error_reported 1 "sum" [⟨1, "t", "c", none, "n", "s", 0⟩] []
     ⟨1, "t", "c", none, "n", "s", 0⟩ (by decide)⟩

/-- Counterexample to C7 as stated: with rows 1 and 2 in table order and
the vector index ranking id 2 above id 1, `query_summaries` returns the
records in table order `[1, 2]`, NOT in the similarity rank order
`[2, 1]` (the SQL `IN` batch lookup does not reorder by rank). -/
theorem query_rank_order_cx :
    querySummaries
        [⟨1, "t1", "c1", some "s1", "n", "src", 0⟩,
         ⟨2, "t2", "c2", some "s2", "n", "src", 0⟩] [2, 1]
      = [⟨1, "t1", some "s1", "n", 0⟩, ⟨2, "t2", some "s2", "n", 0⟩] ∧
    querySummaries
        [⟨1, "t1", "c1", some "s1", "n", "src", 0⟩,
         ⟨2, "t2", "c2", some "s2", "n", "src", 0⟩] [2, 1]
      ≠ [⟨2, "t2", some "s2", "n", 0⟩, ⟨1, "t1", some "s1", "n", 0⟩] := by decide

/-- Claim C7 as amended: `query_summaries` resolves the ranked ids with a
single batch filter over the relational store, silently drops every id
absent from the store, and returns the surviving records in the STORE'S
row order (not the similarity rank order), with at most as many entries as
ranked ids (hence at most `n_results`, the vector index returning at most
`n_results` ids). -/
theorem query_batch_filter_order (db : List NewsSummaryRow) (rankedIds : List Nat)
    (n : Nat) (hnodup : (db.map (fun r => r.id)).Nodup)
    (hlen : rankedIds.length ≤ n) :
    List.Sublist (db.filter (fun r => rankedIds.contains r.id)) db ∧
    (∀ r ∈ db.filter (fun r => rankedIds.contains r.id), r.id ∈ rankedIds) ∧
    querySummaries db rankedIds
      = (db.filter (fun r => rankedIds.contains r.id)).map mkQueryItem ∧
    (querySummaries db rankedIds).length ≤ n := by
  refine ⟨List.filter_sublist db, ?_, rfl, ?_⟩
  · intro r hr
    have hp := List.of_mem_filter hr
    simpa using hp
  · have hsub : List.Sublist
        ((db.filter (fun r => rankedIds.contains r.id)).map (fun r => r.id))
        (db.map (fun r => r.id)) := (List.filter_sublist db).map _
    have hnd : ((db.filter (fun r => rankedIds.contains r.id)).map (fun r => r.id)).Nodup :=
      hnodup.sublist hsub
    have hss : ((db.filter (fun r => rankedIds.contains r.id)).map (fun r => r.id))
        ⊆ rankedIds := by
      intro x hx
      rw [List.mem_map] at hx
      obtain ⟨r, hr, hid⟩ := hx
      rw [← hid]
      simpa using List.of_mem_filter hr
    have hle := (hnd.subperm hss).length_le
    have hq : (querySummaries db rankedIds).length
        = (db.filter (fun r => rankedIds.contains r.id)).length := by
      simp [querySummaries]
    have hml : ((db.filter (fun r => rankedIds.contains r.id)).map (fun r => r.id)).length
        = (db.filter (fun r => rankedIds.contains r.id)).length := by
      simp
    omega

/-- Witness for C7 (amended) at a concrete two-row store and ranked ids
`[2, 1]` with `n_results = 5`. -/
theorem query_batch_filter_order_witness :
    (((([⟨1, "t1", "c1", some "s1", "n", "src", 0⟩,
         ⟨2, "t2", "c2", some "s2", "n", "src", 0⟩] : List NewsSummaryRow)).map
        (fun r => r.id)).Nodup ∧ ([2, 1] : List Nat).length ≤ 5) ∧
    (List.Sublist
        (([⟨1, "t1", "c1", some "s1", "n", "src", 0⟩,
           ⟨2, "t2", "c2", some "s2", "n", "src", 0⟩] : List NewsSummaryRow).filter
          (fun r => [2, 1].contains r.id))
        [⟨1, "t1", "c1", some "s1", "n", "src", 0⟩,
         ⟨2, "t2", "c2", some "s2", "n", "src", 0⟩] ∧
     (∀ r ∈ ([⟨1, "t1", "c1", some "s1", "n", "src", 0⟩,
              ⟨2, "t2", "c2", some "s2", "n", "src", 0⟩] : List NewsSummaryRow).filter
          (fun r => [2, 1].contains r.id), r.id ∈ [2, 1]) ∧
     querySummaries
        [⟨1, "t1", "c1", some "s1", "n", "src", 0⟩,
         ⟨2, "t2", "c2", some "s2", "n", "src", 0⟩] [2, 1]
       = (([⟨1, "t1", "c1", some "s1", "n", "src", 0⟩,
            ⟨2, "t2", "c2", some "s2", "n", "src", 0⟩] : List NewsSummaryRow).filter
           (fun r => [2, 1].contains r.id)).map mkQueryItem ∧
     (querySummaries
        [⟨1, "t1", "c1", some "s1", "n", "src", 0⟩,
         ⟨2, "t2", "c2", some "s2", "n", "src", 0⟩] [2, 1]).length ≤ 5) :=
  ⟨⟨by decide, by decide⟩,
   query_batch_filter_order
     [⟨1, "t1", "c1", some "s1", "n", "src", 0⟩,
      ⟨2, "t2", "c2", some "s2", "n", "src", 0⟩] [2, 1] 5 (by decide) (by decide)⟩
